import Mathlib

/-!
Shallow embedding of the Scheme interpreter (scheme.py, scheme_primitives.py,
scheme_reader.py) and proofs about its specification.

Conventions of the embedding:
* Host (Python) integers are `ℤ`; host floats are modelled as exact rationals
  `ℚ` (the concrete inputs appearing below are all exactly representable, where
  float arithmetic agrees with rational arithmetic).
* Python exceptions are modelled by the inductive `PyExc`; fallible code
  returns `Except PyExc _`.  `SchemeError` is the interpreter's own error
  class; the other constructors are host-level faults.
* Loops whose termination is in question are fuel-indexed and return
  `Option _`, with `none` meaning the fuel was exhausted before the loop
  exited.
-/

namespace SchemeSpec

/-- The exception kinds of the interpreter's host: `schemeError` is the
interpreter's own `SchemeError` (scheme_primitives.py:18-19); the remaining
constructors model the host's built-in exception classes. -/
inductive PyExc where
  | schemeError : String → PyExc
  | syntaxError : String → PyExc
  | valueError : String → PyExc
  | runtimeError : String → PyExc
  | typeError : String → PyExc
  | zeroDivisionError : String → PyExc
  | keyboardInterrupt : PyExc
  | eofError : PyExc
  deriving DecidableEq

/-- A Scheme number: `SchemeInt` wraps a host integer, `SchemeFloat` a host
float (scheme_primitives.py:318, 362), the float modelled as an exact
rational. -/
inductive SNum where
  | int : ℤ → SNum
  | float : ℚ → SNum
  deriving DecidableEq

/-- The numeric value a `SchemeNumber` stands for. -/
def SNum.toQ : SNum → ℚ
  | .int n => (n : ℚ)
  | .float q => q

/-- scnum (scheme_primitives.py:380-385): `r = round(num); if r == num:
scint(r) else scfloat(num)`.  Python `round` is round-half-to-even while
Mathlib `round` is round-half-up, but the two agree whenever `r == num`
holds (then `num` is integral and both round to `num` itself), and the
branch condition `r == num` holds for one iff it holds for the other
(both hold exactly when `num` is integral), so the function is unchanged. -/
def scnum (num : ℚ) : SNum :=
  let r : ℤ := round num
  if (r : ℚ) = num then .int r else .float num

/-- The final normalization step shared by the arithmetic primitives
(scheme_primitives.py:760-763): integral results become `SchemeInt`,
others `SchemeFloat`.  Same rounding-convention remark as for `scnum`. -/
def _arith_norm (s : ℚ) : SNum :=
  if ((round s : ℤ) : ℚ) = s then .int (round s) else .float s

/-- _arith (scheme_primitives.py:753-763): fold `fn` over `vals` starting
from `init`, then normalize exact results to `SchemeInt`. -/
def _arith (fn : ℚ → ℚ → ℚ) (init : ℚ) (vals : List ℚ) : SNum :=
  _arith_norm (vals.foldl fn init)

/-- scheme_add (scheme_primitives.py:765-767). -/
def scheme_add (vals : List ℚ) : SNum := _arith (· + ·) 0 vals

/-- scheme_mul (scheme_primitives.py:775-777). -/
def scheme_mul (vals : List ℚ) : SNum := _arith (· * ·) 1 vals

/-- scheme_sub (scheme_primitives.py:769-773): with a single argument it
returns `val0.neg()` (no normalization, SchemeInt.neg:322-323 /
SchemeFloat.neg:363-364); otherwise `_arith(operator.sub, val0, vals)`. -/
def scheme_sub (val0 : SNum) (vals : List ℚ) : SNum :=
  match vals with
  | [] =>
    match val0 with
    | .int n => .int (-n)
    | .float q => .float (-q)
  | _ => _arith (· - ·) val0.toQ vals

/-- Python's true division operator on numbers: raises `ZeroDivisionError`
on a zero divisor (both for ints and floats). -/
def pyTruediv (a b : ℚ) : Except PyExc ℚ :=
  if b = 0 then .error (.zeroDivisionError "division by zero")
  else .ok (a / b)

/-- The for-loop of `_arith` when the operation may raise: stops at the
first exception, as Python's loop does. -/
def foldExc (fn : ℚ → ℚ → Except PyExc ℚ) : ℚ → List ℚ → Except PyExc ℚ
  | s, [] => .ok s
  | s, v :: vs =>
    match fn s v with
    | .ok s2 => foldExc fn s2 vs
    | .error e => .error e

/-- scheme_div (scheme_primitives.py:779-788): one argument computes
`1/x` starting from `scnum(1)`, zero arguments raise SchemeError, otherwise
fold true division from `vals[0]`; a `ZeroDivisionError` escaping `_arith`
is re-raised as a `SchemeError`. -/
def scheme_div (vals : List ℚ) : Except PyExc SNum :=
  let body : Except PyExc SNum :=
    match vals with
    | [x] => (foldExc pyTruediv (scnum 1).toQ [x]).map _arith_norm
    | [] => .error (.schemeError "/ takes at least one argument")
    | v0 :: rest => (foldExc pyTruediv v0 rest).map _arith_norm
  match body with
  | .error (.zeroDivisionError m) => .error (.schemeError m)
  | r => r

/-- Python's floor-division operator `//` on host ints: rounds toward
negative infinity (`Int.fdiv`), raising `ZeroDivisionError` on a zero
divisor. -/
def pyFloorDiv (a b : ℤ) : Except PyExc ℤ :=
  if b = 0 then .error (.zeroDivisionError "integer division or modulo by zero")
  else .ok (Int.fdiv a b)

/-- Python's `%` operator on host ints: remainder of floor division
(`Int.fmod`, sign of the divisor), raising `ZeroDivisionError` on a zero
divisor. -/
def pyModOp (a b : ℤ) : Except PyExc ℤ :=
  if b = 0 then .error (.zeroDivisionError "integer division or modulo by zero")
  else .ok (Int.fmod a b)

/-- SchemeInt.quo (scheme_primitives.py:326-334): when the operand signs
differ, `-(abs(self) // abs(y))`; otherwise `self // y`; a
`ZeroDivisionError` is caught and re-raised as `SchemeError`. -/
def SchemeInt.quo (a b : ℤ) : Except PyExc ℤ :=
  let body : Except PyExc ℤ :=
    if (decide (b < 0)) ≠ (decide (a < 0)) then
      (pyFloorDiv |a| |b|).map (fun q => -q)
    else
      pyFloorDiv a b
  match body with
  | .error (.zeroDivisionError m) => .error (.schemeError m)
  | r => r

/-- SchemeInt.modulo (scheme_primitives.py:336-341): `self % y`, with
`ZeroDivisionError` re-raised as `SchemeError`. -/
def SchemeInt.modulo (a b : ℤ) : Except PyExc ℤ :=
  match pyModOp a b with
  | .error (.zeroDivisionError m) => .error (.schemeError m)
  | r => r

/-- SchemeInt.rem (scheme_primitives.py:343-345): `q = self.quo(y);
SchemeInt(self - q * y)`. -/
def SchemeInt.rem (a b : ℤ) : Except PyExc ℤ :=
  (SchemeInt.quo a b).map (fun q => a - q * b)

/-- The Scheme value model (scheme_primitives.py): the two boolean
singletons (`.sbool true` is `scheme_true`, `.sbool false` is
`scheme_false`, lines 238-265), numbers, strings, interned symbols
(identified by their name, line 391-434), the `nil` singleton (609-641),
the `okay` unspecified-value singleton (227-232), and pair cells (465-607)
taken structurally (the identity-based, mutable view of pairs needed for
cycle questions is modelled separately below by `Heap`). -/
inductive SValue where
  | sbool : Bool → SValue
  | num : SNum → SValue
  | str : String → SValue
  | sym : String → SValue
  | nil : SValue
  | okay : SValue
  | pair : SValue → SValue → SValue
  deriving DecidableEq

/-- SchemeValue.__bool__ (scheme_primitives.py:64-71) together with its
single override scheme_false.__bool__ (249-250): every value is truthy
except the false singleton.  MRO note: `SchemeInt` and `SchemeStr` list
`SchemeValue` before `int`/`str`, so `SchemeValue.__bool__` wins and
`SchemeInt(0)`/`SchemeStr("")` are truthy. -/
def pyBool : SValue → Bool
  | .sbool false => false
  | _ => true

/-- The single-quote character. -/
def squote : Char := Char.ofNat 39

/-- The double-quote character. -/
def dquote : Char := Char.ofNat 34

/-- The backslash character. -/
def bslash : Char := Char.ofNat 92

/-- The dot character. -/
def dotChar : Char := Char.ofNat 46

/-- Python `str.__repr__`, restricted to strings of printable characters
other than the backslash (the only inputs the development needs): Python
quotes with a single quote, except that a string containing a single quote
and no double quote is double-quoted; inside a single-quoted repr each
single quote is escaped as backslash-quote. -/
def pyReprStr (s : List Char) : List Char :=
  if s.contains squote && !(s.contains dquote) then
    dquote :: s ++ [dquote]
  else
    squote :: (s.map (fun c => if c = squote then [bslash, squote] else [c])).flatten ++ [squote]

/-- SchemeStr.print_repr (scheme_primitives.py:447-457).  The class
attribute `_escape` is the regex `"|\.` (line 447), which matches every
double quote and every literal dot.  When the repr is single-quoted the
code strips the quotes and calls `_escape.sub` with a lambda replacement;
the lambda compares its argument -- an `re.Match` object -- against the
strings `'"'` and `\'`, which is always false, so it falls through to
returning the match object itself, and `re.sub` then raises
`TypeError: expected str instance, re.Match found` as soon as the string
contains at least one match (any `"` or `.`).  With no match, `re.sub`
returns the string unchanged and quotes are added around it. -/
def print_repr (s : List Char) : Except PyExc (List Char) :=
  let r := pyReprStr s
  if r.head? = some squote then
    let inner := (r.drop 1).dropLast
    if inner.any (fun c => c == dquote || c == dotChar) then
      .error (.typeError "expected str instance, re.Match found")
    else
      .ok (dquote :: inner ++ [dquote])
  else
    .ok r

/-- A heap value for the identity-based view of `Pair` cells: a reference
to one of `n` pair objects (object identity is address equality), the
`nil` singleton, or some non-pair atom. -/
inductive HVal (n : ℕ) where
  | pairRef : Fin n → HVal n
  | hnil : HVal n
  | atom : ℤ → HVal n
  deriving DecidableEq

/-- A heap of `n` mutable `Pair` cells: the `first` and `second` field of
each cell (scheme_primitives.py:486-498); `set-cdr!` mutation is modelled
by choosing the heap contents. -/
def Heap (n : ℕ) := Fin n → HVal n × HVal n

/-- `pairp` as used in the `_list_end` loop conditions. -/
def HVal.pairp {n : ℕ} : HVal n → Bool
  | .pairRef _ => true
  | _ => false

/-- One `.second` dereference.  Non-pairs are mapped to themselves; the
loops below only ever dereference values they have checked to be pairs,
so this branch is never taken on the Python side (where it would be an
attribute error). -/
def hsecond {n : ℕ} (h : Heap n) : HVal n → HVal n
  | .pairRef a => (h a).2
  | v => v

/-- The while loop of Pair._list_end (scheme_primitives.py:534-541),
fuel-indexed: entering with `p0 = self` and `p1 = self.second`, it runs

```text
while p1 is not p0 and p1.pairp():
    p1 = p1.second
    if p1 is p0 or not p1.pairp(): break
    p0 = p0.second
return p1
```

`none` means `fuel` iterations did not exit the loop.  Identity `is` is
address equality; in every reachable comparison `p0` is a pair reference,
for which `HVal` equality is exactly object identity. -/
def list_end_loop {n : ℕ} (h : Heap n) : ℕ → HVal n → HVal n → Option (HVal n)
  | 0, _, _ => none
  | fuel + 1, p0, p1 =>
    if p1 = p0 || !p1.pairp then some p1
    else
      let p1a := hsecond h p1
      if p1a = p0 || !p1a.pairp then some p1a
      else list_end_loop h fuel (hsecond h p0) p1a

/-- Pair._list_end (scheme_primitives.py:529-541) on the pair at address
`self`: `p0 = self; p1 = self.second`, then the loop. -/
def list_end {n : ℕ} (h : Heap n) (fuel : ℕ) (self : Fin n) : Option (HVal n) :=
  list_end_loop h fuel (.pairRef self) ((h self).2)

/-- Pair.listp (scheme_primitives.py:526-527): `self._list_end().nullp()`;
`none` when `_list_end` itself does not finish within `fuel`. -/
def pair_listp {n : ℕ} (h : Heap n) (fuel : ℕ) (self : Fin n) : Option Bool :=
  (list_end h fuel self).map (fun e => e = HVal.hnil)

/-- The counting loop of Pair.__len__ (scheme_primitives.py:567-571),
fuel-indexed. -/
def len_loop {n : ℕ} (h : Heap n) : ℕ → ℕ → HVal n → Option ℕ
  | 0, _, _ => none
  | fuel + 1, acc, second =>
    if second.pairp then len_loop h fuel (acc + 1) (hsecond h second)
    else some acc

/-- Pair.__len__ (scheme_primitives.py:564-571): raise SchemeError unless
`_list_end` is nil, then count.  `none` when either loop runs out of
fuel. -/
def pair_len {n : ℕ} (h : Heap n) (fuel : ℕ) (self : Fin n) :
    Option (Except PyExc ℕ) :=
  match list_end h fuel self with
  | none => none
  | some e =>
    if e ≠ HVal.hnil then
      some (.error (.schemeError "length attempted on improper list"))
    else
      (len_loop h fuel 1 ((h self).2)).map .ok

/-- A circular chain of three pairs `a -> b -> c -> a` (buildable with
set-cdr!), the failing input for cycle detection. -/
def cycle3 : Heap 3 := fun i => (HVal.atom 0, HVal.pairRef (i + 1))

/-- A single pair whose second field is itself -- the spec's own example
`(set-cdr! p p)`. -/
def selfloop : Heap 1 := fun _ => (HVal.atom 0, HVal.pairRef 0)

/-- Tokens handed to the reader by the tokenizer, as scheme_read
classifies them (scheme_reader.py:38-57): host ints and floats, host
bools, the literal token `nil`, string tokens and bare symbols. -/
inductive PyToken where
  | intTok : ℤ → PyToken
  | floatTok : ℚ → PyToken
  | boolTok : Bool → PyToken
  | nilTok : PyToken
  | strTok : String → PyToken
  | symTok : String → PyToken
  deriving DecidableEq

/-- The atomic-token branch of scheme_read (scheme_reader.py:41-51):
`nil` reads as the empty list, int and float tokens go through `scnum`,
bools through `scbool`, string tokens become SchemeStr and anything else
non-delimiter an interned symbol. -/
def scheme_read_atom : PyToken → SValue
  | .nilTok => .nil
  | .intTok n => .num (scnum (n : ℚ))
  | .floatTok q => .num (scnum q)
  | .boolTok b => .sbool b
  | .strTok s => .str s
  | .symTok s => .sym s

/-- Frame (scheme.py:83-141): a bindings mapping (modelled as an
association list from symbol name to value) plus an optional parent
(`none` only for the global frame). -/
inductive PyFrame where
  | mk : List (String × SValue) → Option PyFrame → PyFrame

/-- The parent chain length of a frame (0 for the global frame). -/
def PyFrame.depth : PyFrame → ℕ
  | .mk _ none => 0
  | .mk _ (some p) => p.depth + 1

/-- Frame.__eq__ (scheme.py:98-100): `isinstance(other, Frame) and
self.parent == other.parent` -- the bindings are ignored; `None == None`
is true at the roots, and comparing `None` against a frame is false. -/
def frame_eq : PyFrame → PyFrame → Bool
  | .mk _ none, .mk _ none => true
  | .mk _ (some p), .mk _ (some q) => frame_eq p q
  | _, _ => false

/-- LambdaProcedure (scheme.py:186-216): formal parameter list, body and
captured environment frame. -/
structure LambdaProc where
  formals : SValue
  body : SValue
  env : PyFrame

/-- LambdaProcedure.__eq__ (scheme.py:212-216): same type, equal formals,
equal body, and `self.env == other.env`, the last via Frame.__eq__.
Structural `SValue` equality on formals and body is a sufficient condition
for the Python `==` used there. -/
def lambda_eq (x y : LambdaProc) : Bool :=
  decide (x.formals = y.formals) && decide (x.body = y.body) && frame_eq x.env y.env

/-- A single environment frame's bindings for the define model: what
Frame.bindings (scheme.py:88) holds, keyed by symbol name. -/
def EnvB := List (String × SValue)

/-- Frame.define (scheme.py:134-141): `self.bindings[sym] = val`, an
insert-or-overwrite on this frame's own dict. -/
def envDefine : EnvB → String → SValue → EnvB
  | [], name, v => [(name, v)]
  | (k, w) :: rest, name, v =>
    if k = name then (name, v) :: rest else (k, w) :: envDefine rest name v

/-- Dict lookup in one frame's bindings. -/
def envGet : EnvB → String → Option SValue
  | [], _ => none
  | (k, w) :: rest, name => if k = name then some w else envGet rest name

/-- Modelled from the spec: do_define_form (scheme.py:292-302).  The
dispatch skeleton is in the source -- `check_form(vals, 2)`, then a symbol
target (re-checked to exactly two operands), a pair target, or
`SchemeError("bad argument to define")` -- but both action bodies are
`*** YOUR CODE HERE ***` placeholders, so they are modelled from the
spec's §4.3 define row: `(define name expr)` evaluates `expr` in `env`
and binds `name` in `env`; `(define (name . formals) body...)` is sugar
for `(define name (lambda formals body...))`; both return the defined
Symbol as the visible result.  `ev` is the `scheme_eval` the handler
calls; the environment is threaded explicitly. -/
def do_define_form (ev : SValue → EnvB → Except PyExc SValue)
    (vals : SValue) (env : EnvB) : Except PyExc (SValue × EnvB) :=
  match vals with
  | .pair (.sym name) (.pair expr .nil) =>
    match ev expr env with
    | .ok v => .ok (.sym name, envDefine env name v)
    | .error e => .error e
  | .pair (.pair (.sym name) formals) (.pair b1 brest) =>
    match ev (.pair (.sym "lambda") (.pair formals (.pair b1 brest))) env with
    | .ok v => .ok (.sym name, envDefine env name v)
    | .error e => .error e
  | .pair (.sym _) _ => .error (.schemeError "too many operands in form")
  | .pair _ _ => .error (.schemeError "bad argument to define")
  | _ => .error (.schemeError "too few operands in form")

/-- Substring containment on character lists, Python's `in` on strings. -/
def subIn (pat s : List Char) : Bool :=
  (List.range (s.length + 1)).any (fun i => pat.isPrefixOf (s.drop i))

/-- Python `'pat' in s` for strings. -/
def pyIn (pat s : String) : Bool := subIn pat.toList s.toList

/-- How the read-eval-print loop exits. -/
inductive LoopExit where
  | finished : LoopExit
  | raised : PyExc → LoopExit
  deriving DecidableEq

/-- read_eval_print_loop (scheme.py:446-472), run over a script of
already-determined iteration outcomes (each item is what
`scheme_read`/`scheme_eval` produced for one expression), with
`startup=False`.  Per the source's handlers: SchemeError, SyntaxError and
ValueError print `Error: ...` and continue; a RuntimeError whose message
contains `maximum recursion depth exceeded` does the same, any other
RuntimeError is re-raised; EOFError returns; KeyboardInterrupt re-raises
when not in startup; exceptions of other classes are uncaught.  Returns
the printed diagnostics and how the loop ended. -/
def repl_run : List (Except PyExc SValue) → List String × LoopExit
  | [] => ([], .finished)
  | .ok _ :: rest => repl_run rest
  | .error e :: rest =>
    match e with
    | .schemeError m =>
      let r := repl_run rest
      (("Error: " ++ m) :: r.1, r.2)
    | .syntaxError m =>
      let r := repl_run rest
      (("Error: " ++ m) :: r.1, r.2)
    | .valueError m =>
      let r := repl_run rest
      (("Error: " ++ m) :: r.1, r.2)
    | .runtimeError m =>
      if pyIn "maximum recursion depth exceeded" m then
        let r := repl_run rest
        (("Error: " ++ m) :: r.1, r.2)
      else ([], .raised (.runtimeError m))
    | .eofError => ([], .finished)
    | e2 => ([], .raised e2)

/-! ## Theorems -/

/-- C5: a SchemeValue is falsy under the host truthiness test iff it is
the unique false singleton `scheme_false`; in particular the integer 0,
the empty string, nil and the unspecified value are all truthy. -/
theorem truthiness_iff_false_singleton :
    (∀ v : SValue, pyBool v = false ↔ v = SValue.sbool false) ∧
    pyBool (SValue.num (SNum.int 0)) = true ∧
    pyBool (SValue.str "") = true ∧
    pyBool SValue.nil = true ∧
    pyBool SValue.okay = true := by
  refine ⟨fun v => ?_, rfl, rfl, rfl, rfl⟩
  constructor
  · intro h
    match v, h with
    | .sbool false, _ => rfl
  · rintro rfl
    rfl

/-- Witness for C5 at the concrete input `scheme_false`. -/
theorem truthiness_witness : pyBool (SValue.sbool false) = false :=
  (truthiness_iff_false_singleton.1 (SValue.sbool false)).mpr rfl

theorem neg_tmod_left (a b : ℤ) : Int.tmod (-a) b = -Int.tmod a b := by
  have h1 := Int.tmod_def a b
  have h2 := Int.tmod_def (-a) b
  rw [Int.neg_tdiv, Int.mul_neg] at h2
  omega

theorem tmod_natAbs (a b : ℤ) : (Int.tmod a b).natAbs = a.natAbs % b.natAbs := by
  rcases a with m | m <;> rcases b with k | k
  · rfl
  · rfl
  · show (-(Int.ofNat ((m + 1) % k))).natAbs = (m + 1) % k
    rw [Int.natAbs_neg]
    rfl
  · show (-(Int.ofNat ((m + 1) % (k + 1)))).natAbs = (m + 1) % (k + 1)
    rw [Int.natAbs_neg]
    rfl

theorem quo_body (a b q : ℤ)
    (h : (if (decide (b < 0)) ≠ (decide (a < 0)) then
        (pyFloorDiv |a| |b|).map (fun x => -x) else pyFloorDiv a b) = Except.ok q) :
    SchemeInt.quo a b = .ok q := by
  show (match (if (decide (b < 0)) ≠ (decide (a < 0)) then
        (pyFloorDiv |a| |b|).map (fun x => -x) else pyFloorDiv a b) with
      | .error (.zeroDivisionError m) => Except.error (PyExc.schemeError m)
      | r => r) = Except.ok q
  rw [h]

theorem quo_eq_tdiv (a b : ℤ) (hb : b ≠ 0) :
    SchemeInt.quo a b = .ok (a.tdiv b) := by
  apply quo_body
  rcases a with m | m <;> rcases b with k | k
  · -- both nonnegative: same-sign branch, floor and truncation agree
    have hm : ¬(Int.ofNat m < 0) := by rw [Int.ofNat_eq_natCast]; omega
    have hk : ¬(Int.ofNat k < 0) := by rw [Int.ofNat_eq_natCast]; omega
    rw [decide_eq_false hm, decide_eq_false hk, if_neg (by simp), pyFloorDiv, if_neg hb]
    have h2 : Int.fdiv (Int.ofNat m) (Int.ofNat k) = Int.tdiv (Int.ofNat m) (Int.ofNat k) :=
      Int.fdiv_eq_tdiv (by rw [Int.ofNat_eq_natCast]; omega) (by rw [Int.ofNat_eq_natCast]; omega)
    rw [h2]
  · -- a nonnegative, b negative: differing signs
    have hm : ¬(Int.ofNat m < 0) := by rw [Int.ofNat_eq_natCast]; omega
    have hk : Int.negSucc k < 0 := Int.negSucc_lt_zero k
    rw [decide_eq_false hm, decide_eq_true hk, if_pos (by simp),
      Int.abs_eq_natAbs, Int.abs_eq_natAbs]
    show (pyFloorDiv ((m : ℕ) : ℤ) ((k + 1 : ℕ) : ℤ)).map (fun x => -x) = _
    rw [pyFloorDiv, if_neg (by omega), ← Int.ofNat_fdiv]
    show Except.ok (-(((m / (k + 1) : ℕ) : ℤ))) = _
    rfl
  · -- a negative, b nonnegative: differing signs
    have hm : Int.negSucc m < 0 := Int.negSucc_lt_zero m
    have hk : ¬(Int.ofNat k < 0) := by rw [Int.ofNat_eq_natCast]; omega
    have hk0 : ((k : ℕ) : ℤ) ≠ 0 := fun h => hb (by rw [Int.ofNat_eq_natCast]; exact h)
    rw [decide_eq_true hm, decide_eq_false hk, if_pos (by simp),
      Int.abs_eq_natAbs, Int.abs_eq_natAbs]
    show (pyFloorDiv ((m + 1 : ℕ) : ℤ) ((k : ℕ) : ℤ)).map (fun x => -x) = _
    rw [pyFloorDiv, if_neg hk0, ← Int.ofNat_fdiv]
    show Except.ok (-((((m + 1) / k : ℕ) : ℤ))) = _
    rfl
  · -- both negative: same-sign branch; fdiv and tdiv agree definitionally
    have hm : Int.negSucc m < 0 := Int.negSucc_lt_zero m
    have hk : Int.negSucc k < 0 := Int.negSucc_lt_zero k
    rw [decide_eq_true hm, decide_eq_true hk, if_neg (by simp), pyFloorDiv, if_neg hb]
    rfl
theorem quotient_modulo_remainder_signs :
    (∀ a b : ℤ, b ≠ 0 →
      SchemeInt.quo a b = .ok (a.tdiv b) ∧
      (∃ m : ℤ, SchemeInt.modulo a b = .ok m ∧ m = a - b * (a.fdiv b) ∧
        (0 < b → 0 ≤ m ∧ m < b) ∧ (b < 0 → b < m ∧ m ≤ 0)) ∧
      (∃ r : ℤ, SchemeInt.rem a b = .ok r ∧ r = a - (a.tdiv b) * b ∧
        (0 ≤ a → 0 ≤ r) ∧ (a ≤ 0 → r ≤ 0) ∧ |r| < |b|)) ∧
    SchemeInt.quo (-7) 2 = .ok (-3) ∧
    SchemeInt.modulo (-7) 2 = .ok 1 ∧
    SchemeInt.rem (-7) 2 = .ok (-1) := by
  refine ⟨fun a b hb => ⟨quo_eq_tdiv a b hb, ⟨a.fmod b, ?_, ?_, ?_, ?_⟩,
    ⟨a.tmod b, ?_, ?_, ?_, ?_, ?_⟩⟩, rfl, rfl, rfl⟩
  · rw [SchemeInt.modulo, pyModOp, if_neg hb]
  · exact Int.fmod_def a b
  · intro hbpos
    rw [Int.fmod_eq_emod a (le_of_lt hbpos)]
    exact ⟨Int.emod_nonneg a hb, Int.emod_lt_of_pos a hbpos⟩
  · intro hbneg
    have h1 : Int.fmod a b = a - b * (a.fdiv b) := Int.fmod_def a b
    have h2 : (-a).fdiv (-b) = a.fdiv b := by
      rcases a with m | m <;> rcases b with k | k
      · exact absurd hbneg (by rw [Int.ofNat_eq_natCast]; omega)
      · rcases m with - | m
        · show (0 : ℤ).fdiv (-(Int.negSucc k)) = (0 : ℤ).fdiv (Int.negSucc k)
          rw [Int.zero_fdiv, Int.zero_fdiv]
        · rfl
      · exact absurd hbneg (by rw [Int.ofNat_eq_natCast]; omega)
      · rfl
    have h5 : Int.fmod (-a) (-b) = -a - -b * ((-a).fdiv (-b)) := Int.fmod_def (-a) (-b)
    rw [h2, Int.neg_mul] at h5
    have h3 : 0 ≤ Int.fmod (-a) (-b) ∧ Int.fmod (-a) (-b) < -b := by
      rw [Int.fmod_eq_emod (-a) (by omega)]
      exact ⟨Int.emod_nonneg (-a) (by omega), Int.emod_lt_of_pos (-a) (by omega)⟩
    omega
  · rw [SchemeInt.rem, quo_eq_tdiv a b hb]
    show Except.ok (a - a.tdiv b * b) = Except.ok (a.tmod b)
    rw [Int.tmod_def a b]
    ring_nf
  · rw [Int.tmod_def a b]; ring
  · exact fun ha => Int.tmod_nonneg b ha
  · intro ha
    have h4 : Int.tmod (-(-a)) b = -Int.tmod (-a) b := neg_tmod_left (-a) b
    rw [neg_neg] at h4
    have h5 : 0 ≤ Int.tmod (-a) b := Int.tmod_nonneg b (by omega)
    omega
  · rw [Int.abs_eq_natAbs, Int.abs_eq_natAbs]
    have h1 := tmod_natAbs a b
    have h2 : a.natAbs % b.natAbs < b.natAbs :=
      Nat.mod_lt _ (by omega)
    omega

/-- Witness for C2 at the concrete input a = -7, b = 2. -/
theorem quotient_modulo_remainder_signs_witness :
    SchemeInt.quo (-7) 2 = .ok (Int.tdiv (-7) 2) :=
  (quotient_modulo_remainder_signs.1 (-7) 2 (by norm_num)).1

theorem quo_unfold (a b : ℤ) : SchemeInt.quo a b =
    (match (if (decide (b < 0)) ≠ (decide (a < 0)) then
        (pyFloorDiv |a| |b|).map (fun x => -x) else pyFloorDiv a b) with
      | .error (.zeroDivisionError m) => Except.error (PyExc.schemeError m)
      | r => r) := rfl

theorem quo_zero (a : ℤ) : SchemeInt.quo a 0 =
    .error (.schemeError "integer division or modulo by zero") := by
  rw [quo_unfold]
  by_cases ha : a < 0
  · rw [decide_eq_false (by omega : ¬(0 : ℤ) < 0), decide_eq_true ha, if_pos (by simp),
      abs_zero, pyFloorDiv, if_pos rfl]
    rfl
  · rw [decide_eq_false (by omega : ¬(0 : ℤ) < 0), decide_eq_false ha, if_neg (by simp),
      pyFloorDiv, if_pos rfl]

theorem foldExc_zero : ∀ (vs : List ℚ) (s : ℚ), (0 : ℚ) ∈ vs →
    foldExc pyTruediv s vs = .error (.zeroDivisionError "division by zero") := by
  intro vs
  induction vs with
  | nil => intro s h; cases h
  | cons v rest ih =>
    intro s h
    by_cases hv : v = 0
    · subst hv
      show (match pyTruediv s 0 with
        | .ok s2 => foldExc pyTruediv s2 rest
        | .error e => Except.error e) = _
      rw [pyTruediv, if_pos rfl]
    · have hmem : (0 : ℚ) ∈ rest := by
        rcases List.mem_cons.mp h with h1 | h1
        · exact absurd h1.symm hv
        · exact h1
      show (match pyTruediv s v with
        | .ok s2 => foldExc pyTruediv s2 rest
        | .error e => Except.error e) = _
      rw [pyTruediv, if_neg hv]
      exact ih (s / v) hmem

theorem foldExc_cases : ∀ (vs : List ℚ) (s : ℚ),
    (∃ r, foldExc pyTruediv s vs = .ok r) ∨
    foldExc pyTruediv s vs = .error (.zeroDivisionError "division by zero") := by
  intro vs
  induction vs with
  | nil => intro s; exact Or.inl ⟨s, rfl⟩
  | cons v rest ih =>
    intro s
    by_cases hv : v = 0
    · subst hv
      right
      show (match pyTruediv s 0 with
        | .ok s2 => foldExc pyTruediv s2 rest
        | .error e => Except.error e) = _
      rw [pyTruediv, if_pos rfl]
    · have h2 : foldExc pyTruediv s (v :: rest) = foldExc pyTruediv (s / v) rest := by
        show (match pyTruediv s v with
          | .ok s2 => foldExc pyTruediv s2 rest
          | .error e => Except.error e) = _
        rw [pyTruediv, if_neg hv]
      rw [h2]
      exact ih (s / v)

theorem div_unfold_cons (v0 w : ℚ) (ws : List ℚ) : scheme_div (v0 :: w :: ws) =
    (match (foldExc pyTruediv v0 (w :: ws)).map _arith_norm with
      | .error (.zeroDivisionError m) => Except.error (PyExc.schemeError m)
      | r => r) := rfl

theorem div_unfold_one (x : ℚ) : scheme_div [x] =
    (match (foldExc pyTruediv (scnum 1).toQ [x]).map _arith_norm with
      | .error (.zeroDivisionError m) => Except.error (PyExc.schemeError m)
      | r => r) := rfl

/-- C4: a zero divisor makes `/`, `quotient`, `modulo` and `remainder`
raise the interpreter's SchemeError, and none of them ever lets a
host-level ZeroDivisionError escape (every outcome is a normal value or a
SchemeError). -/
theorem division_by_zero_is_scheme_error :
    (∀ a : ℤ, SchemeInt.quo a 0 =
      .error (.schemeError "integer division or modulo by zero")) ∧
    (∀ a : ℤ, SchemeInt.modulo a 0 =
      .error (.schemeError "integer division or modulo by zero")) ∧
    (∀ a : ℤ, SchemeInt.rem a 0 =
      .error (.schemeError "integer division or modulo by zero")) ∧
    (∀ (v0 : ℚ) (vs : List ℚ), (0 : ℚ) ∈ vs →
      scheme_div (v0 :: vs) = .error (.schemeError "division by zero")) ∧
    scheme_div [(0 : ℚ)] = .error (.schemeError "division by zero") ∧
    (∀ a b : ℤ, (∃ q, SchemeInt.quo a b = .ok q) ∨
      (∃ m, SchemeInt.quo a b = .error (.schemeError m))) ∧
    (∀ a b : ℤ, (∃ q, SchemeInt.modulo a b = .ok q) ∨
      (∃ m, SchemeInt.modulo a b = .error (.schemeError m))) ∧
    (∀ a b : ℤ, (∃ q, SchemeInt.rem a b = .ok q) ∨
      (∃ m, SchemeInt.rem a b = .error (.schemeError m))) ∧
    (∀ vals : List ℚ, (∃ v, scheme_div vals = .ok v) ∨
      (∃ m, scheme_div vals = .error (.schemeError m))) := by
  have hquo0 := quo_zero
  have hmod0 : ∀ a : ℤ, SchemeInt.modulo a 0 =
      .error (.schemeError "integer division or modulo by zero") := fun a => rfl
  have hrem0 : ∀ a : ℤ, SchemeInt.rem a 0 =
      .error (.schemeError "integer division or modulo by zero") := by
    intro a
    rw [SchemeInt.rem, quo_zero a]
    rfl
  have hdiv : ∀ (v0 : ℚ) (vs : List ℚ), (0 : ℚ) ∈ vs →
      scheme_div (v0 :: vs) = .error (.schemeError "division by zero") := by
    intro v0 vs hmem
    rcases vs with - | ⟨w, ws⟩
    · cases hmem
    · rw [div_unfold_cons, foldExc_zero (w :: ws) v0 hmem]
      rfl
  refine ⟨hquo0, hmod0, hrem0, hdiv, ?_, ?_, ?_, ?_, ?_⟩
  · rw [div_unfold_one, foldExc_zero [(0 : ℚ)] (scnum 1).toQ (by simp)]
    rfl
  · intro a b
    by_cases hb : b = 0
    · subst hb; exact Or.inr ⟨_, hquo0 a⟩
    · exact Or.inl ⟨_, quo_eq_tdiv a b hb⟩
  · intro a b
    by_cases hb : b = 0
    · subst hb; exact Or.inr ⟨_, hmod0 a⟩
    · left
      refine ⟨a.fmod b, ?_⟩
      rw [SchemeInt.modulo, pyModOp, if_neg hb]
  · intro a b
    by_cases hb : b = 0
    · subst hb; exact Or.inr ⟨_, hrem0 a⟩
    · left
      refine ⟨a - a.tdiv b * b, ?_⟩
      rw [SchemeInt.rem, quo_eq_tdiv a b hb]
      rfl
  · intro vals
    rcases vals with - | ⟨v0, vs⟩
    · exact Or.inr ⟨_, rfl⟩
    rcases vs with - | ⟨w, ws⟩
    · rcases foldExc_cases [v0] (scnum 1).toQ with ⟨r, hr⟩ | hr
      · exact Or.inl ⟨_arith_norm r, by rw [div_unfold_one, hr]; rfl⟩
      · exact Or.inr ⟨_, by rw [div_unfold_one, hr]; rfl⟩
    · rcases foldExc_cases (w :: ws) v0 with ⟨r, hr⟩ | hr
      · exact Or.inl ⟨_arith_norm r, by rw [div_unfold_cons, hr]; rfl⟩
      · exact Or.inr ⟨_, by rw [div_unfold_cons, hr]; rfl⟩

/-- Witness for C4 at the concrete inputs quotient 5 0 and (/ 1 0). -/
theorem division_by_zero_witness :
    SchemeInt.quo 5 0 = .error (.schemeError "integer division or modulo by zero") ∧
    scheme_div [(1 : ℚ), 0] = .error (.schemeError "division by zero") :=
  ⟨division_by_zero_is_scheme_error.1 5,
   division_by_zero_is_scheme_error.2.2.2.1 1 [0] (by simp)⟩

theorem cycle3_loop_none : ∀ (fuel : ℕ) (i : Fin 3),
    list_end_loop cycle3 fuel (.pairRef i) (.pairRef (i + 1)) = none := by
  intro fuel
  induction fuel with
  | zero => intro i; rfl
  | succ f ih =>
    intro i
    fin_cases i
    · show list_end_loop cycle3 (f + 1) (.pairRef 0) (.pairRef 1) = none
      calc list_end_loop cycle3 (f + 1) (.pairRef 0) (.pairRef 1)
          = list_end_loop cycle3 f (.pairRef 1) (.pairRef 2) := rfl
        _ = none := ih 1
    · show list_end_loop cycle3 (f + 1) (.pairRef 1) (.pairRef 2) = none
      calc list_end_loop cycle3 (f + 1) (.pairRef 1) (.pairRef 2)
          = list_end_loop cycle3 f (.pairRef 2) (.pairRef 0) := rfl
        _ = none := ih 2
    · show list_end_loop cycle3 (f + 1) (.pairRef 2) (.pairRef 0) = none
      calc list_end_loop cycle3 (f + 1) (.pairRef 2) (.pairRef 0)
          = list_end_loop cycle3 f (.pairRef 0) (.pairRef 1) := rfl
        _ = none := ih 0

/-- C3 (the code at the failing input): on the circular chain of three
pairs `a -> b -> c -> a`, `Pair._list_end` never exits its loop (no fuel
suffices), so `list?` and `length` loop forever; on the spec's own
one-pair example `(set-cdr! p p)` the loop does exit, `list?` returns
false and `length` raises the SchemeError for an improper list. -/
theorem listp_length_hang_on_three_cycle :
    (∀ fuel : ℕ, pair_listp cycle3 fuel 0 = none) ∧
    (∀ fuel : ℕ, pair_len cycle3 fuel 0 = none) ∧
    pair_listp selfloop 1 0 = some false ∧
    pair_len selfloop 1 0 =
      some (.error (.schemeError "length attempted on improper list")) := by
  have hle : ∀ fuel : ℕ, list_end cycle3 fuel 0 = none := fun fuel =>
    cycle3_loop_none fuel 0
  refine ⟨fun fuel => ?_, fun fuel => ?_, rfl, rfl⟩
  · rw [pair_listp, hle fuel]
    rfl
  · rw [pair_len, hle fuel]

theorem contains_eq_false_of_not_mem {s : List Char} {c : Char}
    (h : ∀ x ∈ s, x ≠ c) : s.contains c = false := by
  induction s with
  | nil => rfl
  | cons a rest ih =>
    rw [List.contains_cons, ih (fun x hx => h x (List.mem_cons_of_mem a hx))]
    have ha : c ≠ a := Ne.symm (h a (List.mem_cons_self a rest))
    simp [ha]

theorem flatten_map_id_of_no_squote {s : List Char} (h : ∀ x ∈ s, x ≠ squote) :
    (s.map (fun c => if c = squote then [bslash, squote] else [c])).flatten = s := by
  induction s with
  | nil => rfl
  | cons a rest ih =>
    have ha : a ≠ squote := h a (List.mem_cons_self a rest)
    show (((if a = squote then [bslash, squote] else [a]) :: _).flatten : List Char) = _
    rw [if_neg ha]
    show a :: (rest.map _).flatten = a :: rest
    rw [ih (fun x hx => h x (List.mem_cons_of_mem a hx))]

theorem any_quote_dot_false {s : List Char}
    (h : ∀ c ∈ s, c ≠ dquote ∧ c ≠ dotChar) :
    (s.any fun c => c == dquote || c == dotChar) = false := by
  induction s with
  | nil => rfl
  | cons a rest ih =>
    rw [List.any_cons, ih (fun x hx => h x (List.mem_cons_of_mem a hx))]
    have h1 := (h a (List.mem_cons_self a rest)).1
    have h2 := (h a (List.mem_cons_self a rest)).2
    simp [h1, h2]

/-- C6: on a string with a double quote (or a dot), `print_repr` raises a
host TypeError out of `re.sub` instead of returning the escaped form; on
strings containing none of quote/double-quote/dot it does return the
contents wrapped in double quotes. -/
theorem print_repr_typeerror_on_quote :
    print_repr [Char.ofNat 97, dquote, Char.ofNat 98] =
      .error (.typeError "expected str instance, re.Match found") ∧
    (∀ s : List Char, (∀ c ∈ s, c ≠ squote ∧ c ≠ dquote ∧ c ≠ dotChar) →
      print_repr s = .ok (dquote :: s ++ [dquote])) := by
  constructor
  · rfl
  · intro s h
    have hs2 : pyReprStr s = squote :: s ++ [squote] := by
      rw [pyReprStr, if_neg ?hc,
        flatten_map_id_of_no_squote (fun x hx => (h x hx).1)]
      case hc =>
        rw [contains_eq_false_of_not_mem (fun x hx => (h x hx).1)]
        simp
    have hany : (s.any fun c => c == dquote || c == dotChar) = false :=
      any_quote_dot_false (fun c hc => ⟨(h c hc).2.1, (h c hc).2.2⟩)
    simp only [print_repr, hs2, List.head?_cons, List.drop_succ_cons,
      List.drop_zero, List.dropLast_concat, hany]
    simp
    exact fun x hx => ⟨(h x hx).2.1, (h x hx).2.2⟩

/-- Witness for C6's hypothesis-bearing part at the two-character string ab. -/
theorem print_repr_witness :
    print_repr [Char.ofNat 97, Char.ofNat 98] =
      .ok (dquote :: [Char.ofNat 97, Char.ofNat 98] ++ [dquote]) :=
  print_repr_typeerror_on_quote.2 [Char.ofNat 97, Char.ofNat 98] (by decide)

theorem frame_eq_iff_depth : ∀ f g : PyFrame,
    frame_eq f g = true ↔ f.depth = g.depth
  | .mk b none, .mk c none => by simp [frame_eq, PyFrame.depth]
  | .mk b none, .mk c (some q) => by simp [frame_eq, PyFrame.depth]
  | .mk b (some p), .mk c none => by simp [frame_eq, PyFrame.depth]
  | .mk b (some p), .mk c (some q) => by
    have ih := frame_eq_iff_depth p q
    simp [frame_eq, PyFrame.depth, ih]

/-- C10: Frame equality ignores bindings -- two frames compare equal iff
their parent chains have the same length -- and consequently two lambda
procedures with equal formals, equal bodies and same-depth captured
environments compare equal whatever bindings those environments hold. -/
theorem frame_equality_ignores_bindings :
    (∀ f g : PyFrame, frame_eq f g = true ↔ f.depth = g.depth) ∧
    (∀ (fm bd : SValue) (e1 e2 : PyFrame), e1.depth = e2.depth →
      lambda_eq ⟨fm, bd, e1⟩ ⟨fm, bd, e2⟩ = true) := by
  refine ⟨frame_eq_iff_depth, fun fm bd e1 e2 hd => ?_⟩
  simp [lambda_eq, (frame_eq_iff_depth e1 e2).mpr hd]

/-- Witness for C10: two global frames with different bindings compare
equal, and so do two lambdas capturing them. -/
theorem frame_equality_witness :
    lambda_eq ⟨SValue.nil, SValue.nil, .mk [("x", SValue.nil)] none⟩
      ⟨SValue.nil, SValue.nil, .mk [] none⟩ = true :=
  frame_equality_ignores_bindings.2 SValue.nil SValue.nil
    (.mk [("x", SValue.nil)] none) (.mk [] none) rfl

/-- C8: inside the REPL, an eval outcome that is a RuntimeError whose
message contains `maximum recursion depth exceeded` is caught, reported
through exactly the diagnostic path a SchemeError takes, and the loop
continues with the remaining input; a RuntimeError without that message
is re-raised and ends the loop. -/
theorem repl_recursion_error_handling :
    (∀ (m : String) (rest : List (Except PyExc SValue)),
      pyIn "maximum recursion depth exceeded" m = true →
      repl_run (.error (.runtimeError m) :: rest) =
        repl_run (.error (.schemeError m) :: rest)) ∧
    (∀ (m : String) (rest : List (Except PyExc SValue)),
      pyIn "maximum recursion depth exceeded" m = true →
      repl_run (.error (.runtimeError m) :: rest) =
        (("Error: " ++ m) :: (repl_run rest).1, (repl_run rest).2)) ∧
    (∀ (m : String) (rest : List (Except PyExc SValue)),
      pyIn "maximum recursion depth exceeded" m = false →
      repl_run (.error (.runtimeError m) :: rest) =
        ([], .raised (.runtimeError m))) := by
  refine ⟨fun m rest h => ?_, fun m rest h => ?_, fun m rest h => ?_⟩ <;>
    simp [repl_run, h]

/-- Witness for C8 at the host's actual message and a nonempty remaining
script, showing the loop continues and prints the diagnostic. -/
theorem repl_recursion_witness :
    repl_run [.error (.runtimeError "maximum recursion depth exceeded"), .ok SValue.nil] =
      (["Error: " ++ "maximum recursion depth exceeded"], .finished) := by
  rw [repl_recursion_error_handling.2.1 "maximum recursion depth exceeded"
    [.ok SValue.nil] (by decide)]
  rfl

theorem envGet_envDefine (env : EnvB) (name : String) (v : SValue) :
    envGet (envDefine env name v) name = some v := by
  induction env with
  | nil => simp [envDefine, envGet]
  | cons kv rest ih =>
    by_cases hk : kv.1 = name
    · simp [envDefine, hk, envGet]
    · simp [envDefine, hk, envGet, ih]

/-- C7: `(define name expr)` evaluates expr, binds name in the frame and
yields the Symbol name; `(define (name . formals) body...)` behaves
exactly as the sugared `(define name (lambda formals body...))` and
likewise yields the Symbol name. -/
theorem define_binds_and_returns_symbol :
    (∀ (ev : SValue → EnvB → Except PyExc SValue) (env : EnvB) (name : String)
        (expr v : SValue), ev expr env = .ok v →
      do_define_form ev (.pair (.sym name) (.pair expr .nil)) env =
        .ok (.sym name, envDefine env name v) ∧
      envGet (envDefine env name v) name = some v) ∧
    (∀ (ev : SValue → EnvB → Except PyExc SValue) (env : EnvB) (name : String)
        (formals b1 brest : SValue),
      do_define_form ev (.pair (.pair (.sym name) formals) (.pair b1 brest)) env =
        do_define_form ev
          (.pair (.sym name)
            (.pair (.pair (.sym "lambda") (.pair formals (.pair b1 brest))) .nil))
          env) := by
  constructor
  · intro ev env name expr v h
    constructor
    · show (match ev expr env with
        | .ok v => Except.ok ((SValue.sym name, envDefine env name v) : SValue × EnvB)
        | .error e => Except.error e) = _
      rw [h]
    · exact envGet_envDefine env name v
  · intro ev env name formals b1 brest
    rfl

/-- Witness for C7: defining x as the value of a trivial expression under
a trivial evaluator binds x and returns the symbol x. -/
theorem define_witness :
    do_define_form (fun _ _ => .ok SValue.okay)
        (.pair (.sym "x") (.pair .nil .nil)) [] =
      .ok (.sym "x", envDefine [] "x" SValue.okay) ∧
    envGet (envDefine [] "x" SValue.okay) "x" = some SValue.okay :=
  define_binds_and_returns_symbol.1 (fun _ _ => .ok SValue.okay) [] "x"
    SValue.nil SValue.okay rfl

theorem _arith_norm_intCast (n : ℤ) : _arith_norm ((n : ℤ) : ℚ) = .int n := by
  rw [_arith_norm, round_intCast, if_pos rfl]

theorem _arith_norm_int_iff (s : ℚ) (n : ℤ) :
    _arith_norm s = .int n ↔ s = (n : ℚ) := by
  constructor
  · intro h
    by_cases hc : ((round s : ℤ) : ℚ) = s
    · rw [_arith_norm, if_pos hc] at h
      have h2 : round s = n := by
        injection h
      rw [← h2]
      exact hc.symm
    · rw [_arith_norm, if_neg hc] at h
      cases h
  · intro h
    subst h
    exact _arith_norm_intCast n

theorem _arith_norm_float (s : ℚ) (h : ¬ ∃ n : ℤ, s = (n : ℚ)) :
    _arith_norm s = .float s := by
  rw [_arith_norm, if_neg (fun hc => h ⟨round s, hc.symm⟩)]

theorem half_not_int : ¬ ∃ n : ℤ, (1 : ℚ) / 2 = (n : ℚ) := by
  rintro ⟨n, hn⟩
  have h3 : (2 : ℚ) * n = 1 := by rw [← hn]; ring
  have h4 : (2 : ℤ) * n = 1 := by exact_mod_cast h3
  omega

theorem foldExc_ok : ∀ (vs : List ℚ) (s : ℚ), (∀ x ∈ vs, x ≠ 0) →
    foldExc pyTruediv s vs = .ok (vs.foldl (· / ·) s) := by
  intro vs
  induction vs with
  | nil => intro s h; rfl
  | cons v rest ih =>
    intro s h
    have hv : v ≠ 0 := h v (List.mem_cons_self v rest)
    show (match pyTruediv s v with
      | .ok s2 => foldExc pyTruediv s2 rest
      | .error e => Except.error e) = _
    rw [pyTruediv, if_neg hv]
    exact ih (s / v) (fun x hx => h x (List.mem_cons_of_mem v hx))

theorem div_cons_ok (v0 : ℚ) (w : ℚ) (ws : List ℚ)
    (h : ∀ x ∈ w :: ws, x ≠ 0) :
    scheme_div (v0 :: w :: ws) = .ok (_arith_norm ((w :: ws).foldl (· / ·) v0)) := by
  rw [div_unfold_cons, foldExc_ok (w :: ws) v0 h]
  rfl

/-- C1: for the variadic arithmetic primitives the result is an exact
SchemeInt exactly when the mathematical (rational-model) result is an
integer, and an inexact SchemeFloat otherwise; in particular
`(+ 1 2) = 3` exactly, `(/ 1 2) = 0.5` inexactly and `(/ 4 2) = 2`
exactly. -/
theorem arithmetic_exactness :
    (∀ (vals : List ℚ) (n : ℤ),
      scheme_add vals = SNum.int n ↔ vals.foldl (· + ·) 0 = (n : ℚ)) ∧
    (∀ vals : List ℚ, (¬ ∃ n : ℤ, vals.foldl (· + ·) 0 = (n : ℚ)) →
      scheme_add vals = SNum.float (vals.foldl (· + ·) 0)) ∧
    (∀ (vals : List ℚ) (n : ℤ),
      scheme_mul vals = SNum.int n ↔ vals.foldl (· * ·) 1 = (n : ℚ)) ∧
    (∀ (v0 : SNum) (vals : List ℚ) (n : ℤ), vals ≠ [] →
      (scheme_sub v0 vals = SNum.int n ↔ vals.foldl (· - ·) v0.toQ = (n : ℚ))) ∧
    (∀ (v0 w : ℚ) (ws : List ℚ) (n : ℤ), (∀ x ∈ w :: ws, x ≠ 0) →
      (scheme_div (v0 :: w :: ws) = .ok (SNum.int n) ↔
        (w :: ws).foldl (· / ·) v0 = (n : ℚ))) ∧
    (∀ (v0 w : ℚ) (ws : List ℚ), (∀ x ∈ w :: ws, x ≠ 0) →
      (¬ ∃ n : ℤ, (w :: ws).foldl (· / ·) v0 = (n : ℚ)) →
      scheme_div (v0 :: w :: ws) =
        .ok (SNum.float ((w :: ws).foldl (· / ·) v0))) ∧
    scheme_add [1, 2] = SNum.int 3 ∧
    scheme_div [1, 2] = .ok (SNum.float (1 / 2)) ∧
    scheme_div [4, 2] = .ok (SNum.int 2) := by
  have hdiv12 : scheme_div [(1 : ℚ), 2] = .ok (_arith_norm ((1 : ℚ) / 2)) := by
    rw [div_cons_ok 1 2 [] (by norm_num)]
    norm_num
  have hdiv42 : scheme_div [(4 : ℚ), 2] = .ok (_arith_norm ((4 : ℚ) / 2)) := by
    rw [div_cons_ok 4 2 [] (by norm_num)]
    norm_num
  refine ⟨fun vals n => _arith_norm_int_iff _ n,
    fun vals h => _arith_norm_float _ h,
    fun vals n => _arith_norm_int_iff _ n,
    fun v0 vals n hne => ?_, fun v0 w ws n h => ?_, fun v0 w ws h hnotint => ?_,
    ?_, ?_, ?_⟩
  · rcases vals with - | ⟨w, ws⟩
    · exact absurd rfl hne
    · exact _arith_norm_int_iff _ n
  · rw [div_cons_ok v0 w ws h]
    constructor
    · intro he
      injection he with he2
      exact (_arith_norm_int_iff _ n).mp he2
    · intro he
      rw [(_arith_norm_int_iff _ n).mpr he]
  · rw [div_cons_ok v0 w ws h, _arith_norm_float _ hnotint]
  · exact (_arith_norm_int_iff _ 3).mpr (by norm_num)
  · rw [hdiv12, _arith_norm_float _ half_not_int]
  · rw [hdiv42, show ((4 : ℚ) / 2) = ((2 : ℤ) : ℚ) by norm_num, _arith_norm_intCast]

/-- Witness for C1 at the concrete inputs of the claim's examples. -/
theorem arithmetic_exactness_witness :
    scheme_div [(1 : ℚ), 2] = .ok (SNum.float (1 / 2)) ∧
    scheme_div [(4 : ℚ), 2] = .ok (SNum.int 2) ∧
    scheme_mul [(2 : ℚ), 3] = SNum.int 6 :=
  ⟨arithmetic_exactness.2.2.2.2.2.2.2.1,
   arithmetic_exactness.2.2.2.2.2.2.2.2,
   (arithmetic_exactness.2.2.1 [2, 3] 6).mpr (by norm_num)⟩

/-- C9: `scnum` returns an exact SchemeInt exactly when its argument is
integral (`round(x) == x`) and an inexact SchemeFloat otherwise, so the
reader turns every integral-valued float token into an exact integer --
the token `2.0` reads as the integer `2` and an integral float literal
never produces a SchemeFloat from `scheme_read`. -/
theorem scnum_reader_exactness :
    (∀ (q : ℚ) (n : ℤ), scnum q = SNum.int n ↔ q = (n : ℚ)) ∧
    (∀ q : ℚ, (¬ ∃ n : ℤ, q = (n : ℚ)) → scnum q = SNum.float q) ∧
    (∀ (q : ℚ) (n : ℤ), q = (n : ℚ) →
      scheme_read_atom (.floatTok q) = .num (SNum.int n)) ∧
    (∀ q : ℚ, (∃ n : ℤ, q = (n : ℚ)) →
      ∀ f : ℚ, scheme_read_atom (.floatTok q) ≠ .num (SNum.float f)) ∧
    scheme_read_atom (.floatTok 2) = .num (SNum.int 2) := by
  have hint : ∀ (q : ℚ) (n : ℤ), scnum q = SNum.int n ↔ q = (n : ℚ) :=
    fun q n => _arith_norm_int_iff q n
  have hread : ∀ (q : ℚ) (n : ℤ), q = (n : ℚ) →
      scheme_read_atom (.floatTok q) = .num (SNum.int n) := by
    intro q n h
    show SValue.num (scnum q) = SValue.num (SNum.int n)
    rw [(hint q n).mpr h]
  refine ⟨hint, fun q h => _arith_norm_float q h, hread, ?_, ?_⟩
  · rintro q ⟨n, hn⟩ f hc
    rw [hread q n hn] at hc
    injection hc with hc2
    cases hc2
  · exact hread 2 2 (by norm_num)

/-- Witness for C9 at the token `2.0`. -/
theorem scnum_reader_witness :
    scheme_read_atom (.floatTok 2) = .num (SNum.int 2) :=
  scnum_reader_exactness.2.2.1 2 2 (by norm_num)

end SchemeSpec
